import Mathlib

/-!
# Verification of the keymap-drawer layer/key rendering and board-composition engine

Shallow embedding of `src/keymap_drawer/draw/draw.py` (class `KeymapDrawer`) and
`src/keymap_drawer/draw/utils.py` (class `UtilsMixin`) into Lean.

Modelling conventions:
* Python floats are modelled as rationals (`ℚ`); all arithmetic performed by the
  code under verification is `+ - * /` and halving, which is exact on the dyadic
  inputs concerned, so rationals are a faithful model.
* Python's built-in `round` (round half to even, "banker's rounding") is
  modelled by `pyRound`.
* The output sink (`self.out`, written via `self.out.write(...)`) is modelled as
  a list of structured SVG fragments (`Frag`); each `write` of an element
  corresponds to one fragment, in call order.  Purely presentational details
  (XML serialisation of a fragment) are not modelled; every numeric or string
  datum interpolated into the markup is a field of the fragment.
* Python strings are Lean `String`s; the character-level functions
  (`str.replace`, `str.split`) are modelled on `List Char`.
* External collaborators (the glyph mixin and the combo mixin / keymap-side
  combo queries, out of scope per the spec) are modelled as function-valued
  fields (`Glyphs`, `Combos`) of the drawer state.
* Fallible steps (Python `assert`, potential `IndexError`) are modelled with
  `Except String`; in `print_board` every such check precedes the first write,
  so an error means nothing was emitted.
-/

namespace KeymapDraw

/-- 2D point with vector arithmetic (`physical_layout.Point`). -/
structure Point where
  x : ℚ
  y : ℚ
  deriving DecidableEq, Repr

instance : Add Point := ⟨fun a b => ⟨a.x + b.x, a.y + b.y⟩⟩

instance : Sub Point := ⟨fun a b => ⟨a.x - b.x, a.y - b.y⟩⟩

/-- Per-key-position geometry (`physical_layout.PhysicalKey`). -/
structure PhysicalKey where
  pos : Point
  width : ℚ
  height : ℚ
  rotation : ℚ
  deriving DecidableEq, Repr

/-- Rendering-relevant data of one key on one layer (`keymap.LayoutKey`):
`tap`, optional `hold`/`shifted` legends (absent = empty string, matching the
Python dataclass defaults and truthiness tests), and a styling `type` tag. -/
structure LayoutKey where
  tap : String
  hold : String
  shifted : String
  type : String
  deriving DecidableEq, Repr

/-- The empty `LayoutKey()` used for blank cells. -/
def LayoutKey.empty : LayoutKey := ⟨"", "", "", ""⟩

/-- Python's built-in `round`: nearest integer, ties to even. -/
def pyRound (q : ℚ) : ℤ :=
  if q - ⌊q⌋ < 1/2 then ⌊q⌋
  else if q - ⌊q⌋ > 1/2 then ⌊q⌋ + 1
  else if ⌊q⌋ % 2 = 0 then ⌊q⌋ else ⌊q⌋ + 1

/-- Modelled from the spec: "round half away from zero" — the rounding rule the
spec asserts for emitted coordinates, stated for comparison with `pyRound`. -/
def roundHalfAway (q : ℚ) : ℤ :=
  if 0 ≤ q then ⌊q + 1/2⌋ else -⌊-q + 1/2⌋

/-- Whitespace characters for Python's `str.split()` (ASCII whitespace). -/
def pyIsSpace (c : Char) : Bool :=
  c == ' ' || c == '\t' || c == '\n' || c == '\r' || c == '\x0b' || c == '\x0c'

/-- `text.replace("  ", "\x00")`: replace leftmost non-overlapping occurrences
of two consecutive spaces by the NUL marker. -/
def replaceDS : List Char → List Char
  | [] => []
  | [c] => [c]
  | c1 :: c2 :: rest =>
    if c1 = ' ' ∧ c2 = ' ' then '\x00' :: replaceDS rest
    else c1 :: replaceDS (c2 :: rest)

/-- Python `str.split()` with no argument: split on runs of whitespace,
discarding empty chunks. -/
def pySplit (l : List Char) : List (List Char) :=
  (l.splitOnP pyIsSpace).filter (fun w => w ≠ [])

/-- `word.replace("\x00", " ")`: restore the embedded spaces in one word. -/
def restoreNul (l : List Char) : List Char :=
  l.map (fun c => if c = '\x00' then ' ' else c)

/-- Character-level core of `UtilsMixin._split_text`. -/
def splitTextChars (l : List Char) : List (List Char) :=
  (pySplit (replaceDS l)).map restoreNul

/-- `UtilsMixin._split_text`: tokenize a legend into lines, treating a double
space as an embedded literal space. -/
def splitText (s : String) : List String :=
  (splitTextChars s.data).map (fun l => String.mk l)

/-- `html.escape` (with quoting) as used on all text content. -/
def escapeChar (c : Char) : String :=
  if c = '&' then "&amp;"
  else if c = '<' then "&lt;"
  else if c = '>' then "&gt;"
  else if c = '"' then "&quot;"
  else if c = '\x27' then "&#x27;"
  else String.mk [c]

/-- `html.escape` over a whole string. -/
def pyEscape (s : String) : String :=
  String.join (s.data.map escapeChar)

/-- `UtilsMixin._to_class_str`: Python
`(' class="' + " ".join(c for c in classes if c) + '"') if classes else ""`.
Note the truthiness test is on the *unfiltered* sequence. -/
def toClassStr (classes : List String) : String :=
  if classes = [] then ""
  else " class=\"" ++ String.intercalate " " (classes.filter (fun c => c ≠ "")) ++ "\""

/-- The legend slots (`LegendType = Literal["tap", "hold", "shifted"]`). -/
inductive LegendType where
  | tap
  | hold
  | shifted
  deriving DecidableEq, Repr

/-- The literal string of a legend slot. -/
def LegendType.str : LegendType → String
  | .tap => "tap"
  | .hold => "hold"
  | .shifted => "shifted"

/-- Key-side sub-parameters of the style configuration
(`config.DrawConfig.key_side_pars`). -/
structure KeySidePars where
  rel_x : ℚ
  rel_y : ℚ
  rel_w : ℚ
  rel_h : ℚ
  rx : ℚ
  ry : ℚ
  deriving DecidableEq, Repr

/-- The style configuration fields consumed by the drawing core
(`config.DrawConfig`).  `shrink_wide_legends = 0` models the falsy setting. -/
structure DrawConfig where
  inner_pad_w : ℚ
  inner_pad_h : ℚ
  outer_pad_w : ℚ
  outer_pad_h : ℚ
  line_spacing : ℚ
  small_pad : ℚ
  legend_rel_x : ℚ
  legend_rel_y : ℚ
  draw_key_sides : Bool
  key_side_pars : KeySidePars
  key_rx : ℚ
  key_ry : ℚ
  shrink_wide_legends : ℕ
  svg_style : String
  append_colon_to_layer_header : Bool
  deriving DecidableEq, Repr

/-- One SVG fragment written to the output sink.  Every numeric or string datum
interpolated into the corresponding markup is a field; coordinates that the
code interpolates through `round(...)` are `ℤ`, those interpolated raw are `ℚ`. -/
inductive Frag where
  | rect (rx ry x y w h : ℤ) (cls : String)
  | textLine (x y : ℤ) (cls : String) (scaling : Option ℚ) (content : String)
  | textOpen (x y : ℤ) (cls : String) (scaling : Option ℚ)
  | tspanFirst (x : ℚ) (dyNeg : ℚ) (content : String)
  | tspanNext (x : ℚ) (dy : ℚ) (content : String)
  | textClose
  | glyphRef (name : String) (x y : ℤ) (height width : ℚ) (cls : String)
  | groupOpen (transform : Option (ℚ × ℤ × ℤ)) (cls : String)
  | groupClose
  | labelText (x y : ℚ) (content : String)
  | svgOpen (width height : ℚ)
  | rawDefs (s : String)
  | styleBlock (s : String)
  | layerOpen (name : String)
  | svgClose
  deriving DecidableEq, Repr

/-- The external Glyph collaborator (`GlyphMixin`), out of scope per the spec:
legend-name recognition, per-slot glyph dimensions `(width, height, d_y)`, and
the glyph-definitions markup. -/
structure Glyphs where
  legendToGlyph : String → Option String
  dims : String → LegendType → ℚ × ℚ × ℚ
  defsMarkup : String

/-- The external Combo collaborator (`ComboDrawerMixin` plus
`KeymapData.get_combos_per_layer`), out of scope per the spec.  Combo
descriptors themselves are opaque (modelled as `ℕ`). -/
structure Combos where
  perLayer : List (String × List LayoutKey) → List (String × List ℕ)
  offsetsPerLayer : List (String × List ℕ) → List (String × (ℚ × ℚ))
  drawForLayer : Point → List ℕ → List Frag

/-- The drawer state bound at construction (`KeymapDrawer.__init__`): the style
configuration, the physical layout (its ordered keys and overall dimensions),
and the two external collaborators. -/
structure Drawer where
  cfg : DrawConfig
  keys : List PhysicalKey
  layoutWidth : ℚ
  layoutHeight : ℚ
  glyphs : Glyphs
  combos : Combos

/-- `UtilsMixin._get_scaling`, modelled as the font-size percentage value
(`none` = no inline style emitted). -/
def getScaling (cfg : DrawConfig) (width : ℕ) : Option ℚ :=
  if cfg.shrink_wide_legends = 0 ∨ width ≤ cfg.shrink_wide_legends then none
  else some (max 60 (100 * (cfg.shrink_wide_legends : ℚ) / (width : ℚ)))

/-- `UtilsMixin._draw_rect`: one `<rect>` with all six numeric attributes
passed through `round(...)`. -/
def drawRect (p dims radii : Point) (classes : List String) : Frag :=
  Frag.rect (pyRound radii.x) (pyRound radii.y)
    (pyRound (p.x - dims.x / 2)) (pyRound (p.y - dims.y / 2))
    (pyRound dims.x) (pyRound dims.y) (toClassStr classes)

/-- `UtilsMixin._draw_key`: two stacked rectangles in key-sides mode, one
otherwise. -/
def drawKeyBox (cfg : DrawConfig) (p dims : Point) (classes : List String) : List Frag :=
  if cfg.draw_key_sides then
    [drawRect p dims ⟨cfg.key_rx, cfg.key_ry⟩ (classes ++ ["side"]),
     drawRect (p - ⟨cfg.key_side_pars.rel_x, cfg.key_side_pars.rel_y⟩)
       (dims - ⟨cfg.key_side_pars.rel_w, cfg.key_side_pars.rel_h⟩)
       ⟨cfg.key_side_pars.rx, cfg.key_side_pars.ry⟩ classes]
  else
    [drawRect p dims ⟨cfg.key_rx, cfg.key_ry⟩ classes]

/-- `UtilsMixin._draw_text`: nothing for an empty word, else one `<text>` node
at rounded coordinates. -/
def drawText (cfg : DrawConfig) (p : Point) (word : String) (classes : List String) : List Frag :=
  if word = "" then []
  else [Frag.textLine (pyRound p.x) (pyRound p.y) (toClassStr classes)
    (getScaling cfg word.length) (pyEscape word)]

/-- `UtilsMixin._draw_textblock`: a `<text>` element at rounded coordinates,
one `<tspan>` per line at *unrounded* `x = p.x`; the first line's upward offset
is `(len(words)-1) * line_spacing * (1+shift)/2`. -/
def drawTextblock (cfg : DrawConfig) (p : Point) (words : List String)
    (classes : List String) (shift : ℚ) : List Frag :=
  let maxLen := (words.map String.length).foldl max 0
  let dy0 := ((words.length - 1 : ℕ) : ℚ) * (cfg.line_spacing * (1 + shift) / 2)
  [Frag.textOpen (pyRound p.x) (pyRound p.y) (toClassStr classes) (getScaling cfg maxLen),
   Frag.tspanFirst p.x dy0 (pyEscape (words.headD ""))]
  ++ (words.drop 1).map (fun w => Frag.tspanNext p.x cfg.line_spacing (pyEscape w))
  ++ [Frag.textClose]

/-- `UtilsMixin._draw_glyph`: one `<use>` reference anchored at rounded
coordinates computed from the collaborator-reported dimensions. -/
def drawGlyph (g : Glyphs) (p : Point) (name : String) (lt : LegendType)
    (classes : List String) : List Frag :=
  let whd := g.dims name lt
  [Frag.glyphRef name (pyRound (p.x - whd.1 / 2)) (pyRound (p.y - whd.2.2))
    whd.2.1 whd.1 (toClassStr (classes ++ ["glyph", name]))]

/-- `UtilsMixin._draw_legend`: the three-way dispatch between nothing, glyph
reference, single text line and text block.  The walrus test
`if glyph := self.legend_is_glyph(words[0])` is falsy for both `None` and the
empty string. -/
def drawLegend (cfg : DrawConfig) (g : Glyphs) (p : Point) (words : List String)
    (classes : List String) (lt : LegendType) (shift : ℚ) : List Frag :=
  if words = [] then []
  else
    let classes := classes ++ [lt.str]
    if words.length = 1 then
      match g.legendToGlyph (words.headD "") with
      | some gl =>
        if gl = "" then drawText cfg p (words.headD "") classes
        else drawGlyph g p gl lt classes
      | none => drawText cfg p (words.headD "") classes
    else drawTextblock cfg p words classes shift

/-- The tap-legend vertical shift computed in `KeymapDrawer.print_key`
(lines 58–64): `0` unless the tap legend splits into exactly two lines, in
which case `-1` when `shifted` is truthy and `hold` is not, `+1` when `hold`
is truthy and `shifted` is not. -/
def computeShift (lk : LayoutKey) : ℚ :=
  if (splitText lk.tap).length = 2 then
    if lk.shifted ≠ "" ∧ lk.hold = "" then -1
    else if lk.hold ≠ "" ∧ lk.shifted = "" then 1
    else 0
  else 0

/-- `KeymapDrawer.print_key`: group wrapper (with rotation transform about the
rounded centre when `rotation ≠ 0`), key box, then tap/hold/shifted legends. -/
def printKey (d : Drawer) (p0 : Point) (pk : PhysicalKey) (lk : LayoutKey)
    (ind : ℕ) : List Frag :=
  let p := p0 + pk.pos
  let transform := if pk.rotation ≠ 0 then some (pk.rotation, pyRound p.x, pyRound p.y) else none
  let tapWords := splitText lk.tap
  let shift := computeShift lk
  let tapShift : Point :=
    if d.cfg.draw_key_sides then
      ⟨d.cfg.legend_rel_x - d.cfg.key_side_pars.rel_x,
       d.cfg.legend_rel_y - d.cfg.key_side_pars.rel_y⟩
    else ⟨d.cfg.legend_rel_x, d.cfg.legend_rel_y⟩
  [Frag.groupOpen transform (toClassStr ["key", lk.type, "keypos-" ++ toString ind])]
  ++ drawKeyBox d.cfg p ⟨pk.width - 2 * d.cfg.inner_pad_w, pk.height - 2 * d.cfg.inner_pad_h⟩
      ["key", lk.type]
  ++ drawLegend d.cfg d.glyphs (p + tapShift) tapWords ["key", lk.type] .tap shift
  ++ drawLegend d.cfg d.glyphs
      (p + ⟨0, pk.height / 2 - d.cfg.inner_pad_h - d.cfg.small_pad⟩)
      [lk.hold] ["key", lk.type] .hold 0
  ++ drawLegend d.cfg d.glyphs
      (p - ⟨0, pk.height / 2 - d.cfg.inner_pad_h - d.cfg.small_pad⟩)
      [lk.shifted] ["key", lk.type] .shifted 0
  ++ [Frag.groupClose]

/-- `KeymapDrawer.print_layer_header`: one label text node at *unrounded*
coordinates, optionally with a trailing colon. -/
def printLayerHeader (cfg : DrawConfig) (p : Point) (header : String) : Frag :=
  let header := if cfg.append_colon_to_layer_header then header ++ ":" else header
  Frag.labelText p.x p.y (pyEscape header)

/-- `KeymapDrawer.print_layer`: paired iteration
`zip(self.layout.keys, layer_keys)` — the iteration stops at the shorter of the
physical layout and the layer's key sequence. -/
def printLayer (d : Drawer) (p0 : Point) (layerKeys : List LayoutKey)
    (emptyLayer : Bool) : List Frag :=
  ((d.keys.zip layerKeys).enum.map (fun ip =>
    printKey d p0 ip.2.1 (if emptyLayer then LayoutKey.empty else ip.2.2) ip.1)).flatten

/-- The layer-selection step of `KeymapDrawer.print_board` (lines 109–111):
`if draw_layers:` is falsy for both `None` and the empty list; the `assert`
that all requested names exist is modelled as an error; the surviving layers
keep their original relative order. -/
def filterLayers (keymap : List (String × List LayoutKey))
    (drawLayers : Option (List String)) : Except String (List (String × List LayoutKey)) :=
  match drawLayers with
  | none => .ok keymap
  | some ds =>
    if ds = [] then .ok keymap
    else if ds.all (fun l => keymap.any (fun nl => nl.1 = l)) then
      .ok (keymap.filter (fun nl => ds.contains nl.1))
    else .error "Some layer names selected for drawing are not in the keymap"

/-- `layer[key_position].type = "ghost"` on one working-copy layer: overwrite
the `type` tag, keeping the legends; an out-of-range index is Python's
`IndexError`. -/
def setGhostAt (ks : List LayoutKey) (posn : ℕ) : Except String (List LayoutKey) :=
  match ks[posn]? with
  | some k => .ok (ks.set posn ⟨k.tap, k.hold, k.shifted, "ghost"⟩)
  | none => .error "IndexError: list assignment index out of range"

/-- The ghost-key step of `KeymapDrawer.print_board` (lines 113–119): for each
requested position, `assert 0 <= key_position < len(self.layout)`, then mark
that position `"ghost"` in every working-copy layer.  `if ghost_keys:` is falsy
for `None` and the empty list (the fold is the identity on `[]`). -/
def applyGhosts (numKeys : ℕ) (layers : List (String × List LayoutKey))
    (ghostKeys : Option (List ℤ)) : Except String (List (String × List LayoutKey)) :=
  match ghostKeys with
  | none => .ok layers
  | some gs =>
    gs.foldlM (fun acc kp =>
      if 0 ≤ kp ∧ kp < (numKeys : ℤ) then
        acc.mapM (fun nl => (setGhostAt nl.2 kp.toNat).map (fun ks => (nl.1, ks)))
      else .error "Some key positions for ghost keys are negative or too large for the layout")
      layers

/-- The per-layer emission step of `KeymapDrawer.print_board` (lines 143–156):
layer group, header at the cursor plus half the outer padding, cursor advance
by outer padding plus the reserved top offset, keys (blank if `combos_only`),
combo overlays, cursor advance by layout height plus the reserved bottom
offset. -/
def layerStep (d : Drawer) (combosOnly : Bool) (offFor : String → ℚ × ℚ)
    (comboFor : String → List ℕ) (acc : Point × List Frag)
    (nl : String × List LayoutKey) : Point × List Frag :=
  let p := acc.1
  let frags := [Frag.layerOpen nl.1,
    printLayerHeader d.cfg (p + ⟨0, d.cfg.outer_pad_h / 2⟩) nl.1]
  let p := p + ⟨0, d.cfg.outer_pad_h + (offFor nl.1).1⟩
  let frags := frags ++ printLayer d p nl.2 combosOnly
    ++ d.combos.drawForLayer p (comboFor nl.1) ++ [Frag.groupClose]
  let p := p + ⟨0, d.layoutHeight + (offFor nl.1).2⟩
  (p, acc.2 ++ frags)

/-- The combos-per-layer mapping obtained in `print_board` (lines 121–124):
the Combo collaborator's answer, or an empty list per layer if `keys_only`. -/
def combosFor (d : Drawer) (keysOnly : Bool)
    (layers : List (String × List LayoutKey)) : List (String × List ℕ) :=
  if ¬ keysOnly then d.combos.perLayer layers
  else layers.map (fun nl => (nl.1, []))

/-- The emission phase of `KeymapDrawer.print_board` (lines 121–158, after all
validation): document root with the analytically computed width/height, glyph
definitions, style block, then each layer in order. -/
def emitBoard (d : Drawer) (keysOnly combosOnly : Bool)
    (layers : List (String × List LayoutKey)) : List Frag :=
  let combosPerLayer := combosFor d keysOnly layers
  let offsetsPerLayer := d.combos.offsetsPerLayer combosPerLayer
  let offFor := fun n => (offsetsPerLayer.lookup n).getD (0, 0)
  let comboFor := fun n => (combosPerLayer.lookup n).getD []
  let boardW := d.layoutWidth + 2 * d.cfg.outer_pad_w
  let boardH := (layers.length : ℚ) * d.layoutHeight
    + ((layers.length : ℚ) + 1) * d.cfg.outer_pad_h
    + ((offsetsPerLayer.map (fun x => x.2.1 + x.2.2)).sum)
  [Frag.svgOpen boardW boardH, Frag.rawDefs d.glyphs.defsMarkup,
   Frag.styleBlock d.cfg.svg_style]
  ++ (layers.foldl (layerStep d combosOnly offFor comboFor)
    (⟨d.cfg.outer_pad_w, 0⟩, [])).2
  ++ [Frag.svgClose]

/-- `KeymapDrawer.print_board`.  The Python `deepcopy` of the layers is the
pure-value semantics of the embedding: all mutation below acts on the returned
working copy, never on the caller's `keymap` argument.  Both validating
`assert`s (and any `IndexError` from ghost marking) precede the first write,
so on error the result carries no fragments at all. -/
def printBoard (d : Drawer) (keymap : List (String × List LayoutKey))
    (drawLayers : Option (List String)) (keysOnly combosOnly : Bool)
    (ghostKeys : Option (List ℤ)) : Except String (List Frag) := do
  let layers ← filterLayers keymap drawLayers
  let layers ← applyGhosts d.keys.length layers ghostKeys
  return emitBoard d keysOnly combosOnly layers

/-- One `print_board` call against an output sink holding `sink` already:
on success the emitted fragments are appended, on failure (a failed `assert`,
which precedes every write) the sink is left untouched. -/
def printBoardRun (d : Drawer) (keymap : List (String × List LayoutKey))
    (drawLayers : Option (List String)) (keysOnly combosOnly : Bool)
    (ghostKeys : Option (List ℤ)) (sink : List Frag) : List Frag × Option String :=
  match printBoard d keymap drawLayers keysOnly combosOnly ghostKeys with
  | .ok o => (sink ++ o, none)
  | .error e => (sink, some e)

/-! ## Statement vocabulary -/

/-- `n` is the rounding of `q` to a nearest integer with ties going to the
even integer — the rounding rule Python's `round` implements. -/
def RoundsTiesEven (q : ℚ) (n : ℤ) : Prop :=
  |q - (n : ℚ)| ≤ 1/2 ∧ (|q - (n : ℚ)| = 1/2 → n % 2 = 0)

/-- A word of a legend: nonempty, containing neither whitespace nor the NUL
marker character. -/
def IsWord (w : List Char) : Prop :=
  w ≠ [] ∧ ∀ c ∈ w, ¬ pyIsSpace c ∧ c ≠ '\x00'

instance (w : List Char) : Decidable (IsWord w) := by
  unfold IsWord
  infer_instance

/-- Join a list of tokens with single-space separators (the shape of a legend
string whose whitespace-delimited fragments are the given tokens). -/
def joinSp : List (List Char) → List Char
  | [] => []
  | [w] => w
  | w :: ws => w ++ ' ' :: joinSp ws

/-- Recognize the opening fragment of one key's group wrapper. -/
def isKeyGroupOpen : Frag → Bool
  | .groupOpen _ _ => true
  | _ => false

/-- The (unrounded) `x` coordinate carried by a `<tspan>` fragment, if any. -/
def tspanX : Frag → Option ℚ
  | .tspanFirst x _ _ => some x
  | .tspanNext x _ _ => some x
  | _ => none

/-! ## Concrete fixtures used by witnesses -/

/-- A concrete style configuration (flat keys, no legend shrinking). -/
def sampleCfg : DrawConfig :=
  ⟨2, 2, 30, 15, 6/5, 2, 0, 0, false, ⟨0, 0, 0, 0, 0, 0⟩, 6, 6, 0, "", false⟩

/-- A glyph collaborator recognizing no legends. -/
def noGlyphs : Glyphs := ⟨fun _ => none, fun _ _ => (0, 0, 0), ""⟩

/-- A glyph collaborator recognizing the single legend `"sym"`. -/
def sampleGlyphs : Glyphs :=
  ⟨fun w => if w = "sym" then some "gsym" else none, fun _ _ => (10, 14, 5), "defs"⟩

/-- A combo collaborator reporting no combos and zero offsets. -/
def noCombos : Combos :=
  ⟨fun layers => layers.map (fun nl => (nl.1, [])),
   fun cpl => cpl.map (fun nl => (nl.1, (0, 0))),
   fun _ _ => []⟩

/-- A concrete drawer over a two-key physical layout. -/
def sampleDrawer : Drawer :=
  ⟨sampleCfg, [⟨⟨0, 0⟩, 52, 52, 0⟩, ⟨⟨60, 0⟩, 52, 52, 0⟩], 120, 60, noGlyphs, noCombos⟩

/-! ## Shared lemmas -/

/-- Python's `round` returns a nearest integer, with ties going to the even
integer. -/
theorem pyRound_spec (q : ℚ) : RoundsTiesEven q (pyRound q) := by
  have h0 : (⌊q⌋ : ℚ) ≤ q := Int.floor_le q
  have h1 : q < ⌊q⌋ + 1 := Int.lt_floor_add_one q
  unfold RoundsTiesEven pyRound
  split_ifs with hlt hgt heven
  · constructor
    · rw [abs_of_nonneg (by linarith)]; linarith
    · intro habs
      rw [abs_of_nonneg (by linarith)] at habs
      linarith
  · push_cast
    constructor
    · rw [abs_of_nonpos (by linarith)]; linarith
    · intro habs
      rw [abs_of_nonpos (by linarith)] at habs
      linarith [not_lt.mp hlt]
  · have heq : q - ⌊q⌋ = 1/2 := le_antisymm (not_lt.mp hgt) (not_lt.mp hlt)
    exact ⟨by rw [abs_of_nonneg (by linarith)]; linarith,
      fun _ => heven⟩
  · have heq : q - ⌊q⌋ = 1/2 := le_antisymm (not_lt.mp hgt) (not_lt.mp hlt)
    have hodd : ⌊q⌋ % 2 ≠ 0 := heven
    constructor
    · push_cast
      rw [abs_of_nonpos (by linarith)]
      linarith
    · intro _
      omega

/-- `>>=` on a successful `Except` computation. -/
theorem exBind_ok {α β : Type} (x : α) (f : α → Except String β) :
    (Except.ok x >>= f) = f x := rfl

/-- `>>=` on a failed `Except` computation. -/
theorem exBind_error {α β : Type} (e : String) (f : α → Except String β) :
    ((Except.error e : Except String α) >>= f) = .error e := rfl

/-- `List.mapM` into `Except` succeeds pointwise: if `f` returns `ok ∘ g` on
every element, `mapM f` returns the mapped list. -/
theorem exceptMapM_ok {α β : Type} (f : α → Except String β) (g : α → β)
    (l : List α) (h : ∀ x ∈ l, f x = .ok (g x)) : l.mapM f = .ok (l.map g) := by
  induction l with
  | nil => rfl
  | cons a t ih =>
    rw [List.mapM_cons, h a (List.mem_cons_self a t),
      ih (fun x hx => h x (List.mem_cons_of_mem a hx))]
    rfl

/-- `printBoard` is the two validation steps followed by the pure emission. -/
theorem printBoard_eq (d : Drawer) (keymap : List (String × List LayoutKey))
    (drawLayers : Option (List String)) (keysOnly combosOnly : Bool)
    (ghostKeys : Option (List ℤ)) :
    printBoard d keymap drawLayers keysOnly combosOnly ghostKeys
      = match filterLayers keymap drawLayers with
        | .error e => .error e
        | .ok ls =>
          match applyGhosts d.keys.length ls ghostKeys with
          | .error e => .error e
          | .ok ls2 => .ok (emitBoard d keysOnly combosOnly ls2) := by
  unfold printBoard
  cases hf : filterLayers keymap drawLayers with
  | error e => rfl
  | ok ls =>
    simp only [exBind_ok]
    cases hg : applyGhosts d.keys.length ls ghostKeys with
    | error e => rfl
    | ok ls2 => rfl

/-- If some requested ghost position is out of range, the ghost fold fails, no
matter what the other positions do to the working copy. -/
theorem ghostFold_err (numKeys : ℕ) (k : ℤ)
    (hbad : ¬ (0 ≤ k ∧ k < (numKeys : ℤ))) :
    ∀ gs : List ℤ, k ∈ gs → ∀ layers : List (String × List LayoutKey),
      ∃ e, List.foldlM (fun acc kp =>
          if 0 ≤ kp ∧ kp < (numKeys : ℤ) then
            acc.mapM (fun nl => (setGhostAt nl.2 kp.toNat).map (fun ks => (nl.1, ks)))
          else .error "Some key positions for ghost keys are negative or too large for the layout")
        layers gs = .error e := by
  intro gs
  induction gs with
  | nil => intro hmem; exact absurd hmem (List.not_mem_nil k)
  | cons a t ih =>
    intro hmem layers
    rw [List.foldlM_cons]
    by_cases hv : 0 ≤ a ∧ a < (numKeys : ℤ)
    · rw [if_pos hv]
      have hkt : k ∈ t := by
        rcases List.mem_cons.mp hmem with h | h
        · exact absurd (h ▸ hv) hbad
        · exact h
      cases hm : layers.mapM
          (fun nl => (setGhostAt nl.2 a.toNat).map (fun ks => (nl.1, ks))) with
      | error e => rw [exBind_error]; exact ⟨e, rfl⟩
      | ok l2 => rw [exBind_ok]; exact ih hkt l2
    · rw [if_neg hv, exBind_error]
      exact ⟨_, rfl⟩

/-- A character that is not whitespace is not the space character. -/
theorem ne_space_of_not_space {c : Char} (h : ¬ pyIsSpace c) : c ≠ ' ' :=
  fun hc => h (by rw [hc]; rfl)

/-- `replaceDS` passes a non-space head through unchanged. -/
theorem replaceDS_cons_ne (c : Char) (t : List Char) (h : c ≠ ' ') :
    replaceDS (c :: t) = c :: replaceDS t := by
  cases t with
  | nil => rfl
  | cons c2 r => simp [replaceDS, h]

/-- `replaceDS` passes a single space followed by a non-space through. -/
theorem replaceDS_sp (c : Char) (t : List Char) (h : c ≠ ' ') :
    replaceDS (' ' :: c :: t) = ' ' :: replaceDS (c :: t) := by
  simp [replaceDS, h]

/-- `replaceDS` turns a double space into the NUL marker. -/
theorem replaceDS_dd (t : List Char) :
    replaceDS (' ' :: ' ' :: t) = '\x00' :: replaceDS t := by
  simp [replaceDS]

/-- `replaceDS` passes a space-free prefix through unchanged. -/
theorem replaceDS_word_append (w rest : List Char) (hw : ∀ c ∈ w, c ≠ ' ') :
    replaceDS (w ++ rest) = w ++ replaceDS rest := by
  induction w with
  | nil => rfl
  | cons c w ih =>
    rw [List.cons_append, replaceDS_cons_ne c _ (hw c (List.mem_cons_self c w)),
      ih (fun x hx => hw x (List.mem_cons_of_mem c hx))]
    rfl

/-- `replaceDS` fixes a space-free word. -/
theorem replaceDS_word (w : List Char) (hw : ∀ c ∈ w, c ≠ ' ') :
    replaceDS w = w := by
  have h0 : replaceDS [] = [] := rfl
  have h1 := replaceDS_word_append w [] hw
  rw [List.append_nil, h0, List.append_nil] at h1
  exact h1

/-- Unfolding equation for `joinSp` on a cons. -/
theorem joinSp_cons (w : List Char) (ws : List (List Char)) :
    joinSp (w :: ws) = w ++ (if ws = [] then [] else ' ' :: joinSp ws) := by
  cases ws with
  | nil => simp [joinSp]
  | cons v vs => rfl

/-- `joinSp` of a list whose first token starts with `c` starts with `c`. -/
theorem joinSp_cons_head (c : Char) (v' : List Char) (vs : List (List Char)) :
    ∃ t, joinSp ((c :: v') :: vs) = c :: t := by
  rw [joinSp_cons]
  exact ⟨_, rfl⟩

/-- `replaceDS` fixes any single-space join of words. -/
theorem replaceDS_joinSp_words (ws : List (List Char)) (h : ∀ w ∈ ws, IsWord w) :
    replaceDS (joinSp ws) = joinSp ws := by
  induction ws with
  | nil => rfl
  | cons w ws ih =>
    have hw : ∀ c ∈ w, c ≠ ' ' :=
      fun c hc => ne_space_of_not_space ((h w (List.mem_cons_self w ws)).2 c hc).1
    have hws : ∀ v ∈ ws, IsWord v := fun v hv => h v (List.mem_cons_of_mem w hv)
    rw [joinSp_cons]
    cases ws with
    | nil => simpa using replaceDS_word w hw
    | cons v vs =>
      rw [if_neg (List.cons_ne_nil v vs), replaceDS_word_append w _ hw]
      obtain ⟨cv, v', hv⟩ : ∃ cv v', v = cv :: v' := by
        cases hv0 : v with
        | nil => exact absurd (hv0 ▸ (hws v (List.mem_cons_self v vs)).1) (by simp)
        | cons a b => exact ⟨a, b, rfl⟩
      obtain ⟨t, ht⟩ := joinSp_cons_head cv v' vs
      have hcv : cv ≠ ' ' :=
        ne_space_of_not_space
          (((hws v (List.mem_cons_self v vs)).2 cv (hv ▸ List.mem_cons_self cv v')).1)
      rw [hv, ht, replaceDS_sp cv t hcv, ← ht, ← hv, ih hws]

/-- On a legend whose only double space sits between the words `w1` and `w2`,
`replaceDS` replaces exactly that double space by the NUL marker and leaves
the rest of the string unchanged. -/
theorem replaceDS_marked (pre post : List (List Char)) (w1 w2 : List Char)
    (hpre : ∀ w ∈ pre, IsWord w) (hpost : ∀ w ∈ post, IsWord w)
    (h1 : IsWord w1) (h2 : IsWord w2) :
    replaceDS (joinSp (pre ++ (w1 ++ ' ' :: ' ' :: w2) :: post))
      = joinSp (pre ++ (w1 ++ '\x00' :: w2) :: post) := by
  have hw1 : ∀ c ∈ w1, c ≠ ' ' := fun c hc => ne_space_of_not_space (h1.2 c hc).1
  have hw2 : ∀ c ∈ w2, c ≠ ' ' := fun c hc => ne_space_of_not_space (h2.2 c hc).1
  induction pre with
  | nil =>
    rw [List.nil_append, List.nil_append]
    cases post with
    | nil =>
      simp only [joinSp]
      rw [replaceDS_word_append w1 _ hw1, replaceDS_dd, replaceDS_word w2 hw2]
    | cons p ps =>
      simp only [joinSp, List.append_assoc, List.cons_append]
      rw [replaceDS_word_append w1 _ hw1, replaceDS_dd,
        replaceDS_word_append w2 _ hw2]
      obtain ⟨cp, p', hp⟩ : ∃ cp p', p = cp :: p' := by
        cases hp0 : p with
        | nil =>
          exact absurd (hp0 ▸ (hpost p (List.mem_cons_self p ps)).1) (by simp)
        | cons a b => exact ⟨a, b, rfl⟩
      obtain ⟨t, ht⟩ := joinSp_cons_head cp p' ps
      rw [← hp] at ht
      have hcp : cp ≠ ' ' :=
        ne_space_of_not_space
          (((hpost p (List.mem_cons_self p ps)).2 cp
            (hp ▸ List.mem_cons_self cp p')).1)
      rw [ht, replaceDS_sp cp t hcp, ← ht,
        replaceDS_joinSp_words (p :: ps) hpost]
  | cons q pre' ih =>
    have hq : ∀ c ∈ q, c ≠ ' ' :=
      fun c hc => ne_space_of_not_space ((hpre q (List.mem_cons_self q pre')).2 c hc).1
    have hpre' : ∀ w ∈ pre', IsWord w := fun w hw => hpre w (List.mem_cons_of_mem q hw)
    rw [List.cons_append, List.cons_append, joinSp_cons, joinSp_cons,
      if_neg (List.append_ne_nil_of_right_ne_nil pre' (List.cons_ne_nil _ _)),
      if_neg (List.append_ne_nil_of_right_ne_nil pre' (List.cons_ne_nil _ _)),
      replaceDS_word_append q _ hq]
    obtain ⟨c0, t0, ht0, hc0⟩ : ∃ c0 t0,
        joinSp (pre' ++ (w1 ++ ' ' :: ' ' :: w2) :: post) = c0 :: t0 ∧ c0 ≠ ' ' := by
      cases hpre0 : pre' with
      | nil =>
        obtain ⟨c1, w1', hw1e⟩ : ∃ c1 w1', w1 = c1 :: w1' := by
          cases hx : w1 with
          | nil => exact absurd (hx ▸ h1.1) (by simp)
          | cons a b => exact ⟨a, b, rfl⟩
        obtain ⟨t, ht⟩ := joinSp_cons_head c1 (w1' ++ ' ' :: ' ' :: w2) post
        refine ⟨c1, t, ?_, hw1 c1 (hw1e ▸ List.mem_cons_self c1 w1')⟩
        rw [List.nil_append, show (w1 ++ ' ' :: ' ' :: w2)
          = c1 :: (w1' ++ ' ' :: ' ' :: w2) by rw [hw1e, List.cons_append]]
        exact ht
      | cons r rs =>
        obtain ⟨cr, r', hr⟩ : ∃ cr r', r = cr :: r' := by
          cases hx : r with
          | nil =>
            exact absurd (hx ▸ (hpre' r (hpre0 ▸ List.mem_cons_self r rs)).1) (by simp)
          | cons a b => exact ⟨a, b, rfl⟩
        obtain ⟨t, ht⟩ :=
          joinSp_cons_head cr r' (rs ++ (w1 ++ ' ' :: ' ' :: w2) :: post)
        refine ⟨cr, t, ?_, ?_⟩
        · rw [hr]
          exact ht
        · exact ne_space_of_not_space
            (((hpre' r (hpre0 ▸ List.mem_cons_self r rs)).2 cr
              (hr ▸ List.mem_cons_self cr r')).1)
    rw [ht0, replaceDS_sp c0 t0 hc0, ← ht0, ih hpre']

/-- `pySplit` of the empty string is empty. -/
theorem pySplit_nil : pySplit [] = [] := rfl

/-- `pySplit` of a single nonempty whitespace-free token is that token. -/
theorem pySplit_single (t : List Char) (hne : t ≠ [])
    (ht : ∀ c ∈ t, ¬ pyIsSpace c) : pySplit t = [t] := by
  rw [pySplit, List.splitOnP_eq_single _ _ ht]
  simp [hne]

/-- `pySplit` peels one space-separated nonempty whitespace-free token. -/
theorem pySplit_sep (t rest : List Char) (hne : t ≠ [])
    (ht : ∀ c ∈ t, ¬ pyIsSpace c) :
    pySplit (t ++ ' ' :: rest) = t :: pySplit rest := by
  rw [pySplit, List.splitOnP_first pyIsSpace t ht ' ' rfl rest]
  simp [hne, pySplit]

/-- `pySplit` recovers the tokens of a single-space join of nonempty
whitespace-free tokens. -/
theorem pySplit_joinSp (ws : List (List Char))
    (h : ∀ w ∈ ws, w ≠ [] ∧ ∀ c ∈ w, ¬ pyIsSpace c) :
    pySplit (joinSp ws) = ws := by
  induction ws with
  | nil => rfl
  | cons w ws ih =>
    have hw := h w (List.mem_cons_self w ws)
    have hws := fun v hv => h v (List.mem_cons_of_mem w hv)
    rw [joinSp_cons]
    cases ws with
    | nil =>
      rw [if_pos rfl, List.append_nil]
      exact pySplit_single w hw.1 hw.2
    | cons v vs =>
      rw [if_neg (List.cons_ne_nil v vs), pySplit_sep w _ hw.1 hw.2, ih hws]

/-- `restoreNul` fixes a NUL-free word. -/
theorem restoreNul_id (w : List Char) (h : ∀ c ∈ w, c ≠ '\x00') :
    restoreNul w = w := by
  rw [restoreNul, List.map_congr_left (fun c hc => if_neg (h c hc))]
  simp

/-- `restoreNul` turns the single NUL marker back into a literal space. -/
theorem restoreNul_marked (w1 w2 : List Char) (h1 : ∀ c ∈ w1, c ≠ '\x00')
    (h2 : ∀ c ∈ w2, c ≠ '\x00') :
    restoreNul (w1 ++ '\x00' :: w2) = w1 ++ ' ' :: w2 := by
  rw [restoreNul, List.map_append, List.map_cons, if_pos rfl]
  rw [← restoreNul, ← restoreNul, restoreNul_id w1 h1, restoreNul_id w2 h2]

/-- **C9**: when a legend string contains exactly one pair of adjacent spaces,
sitting between the non-space words `w1` and `w2` (with any other
single-space-separated words around them), `_split_text` never breaks a line
at that double space: `w1` and `w2` come out as one token with exactly one
literal space restored in between, while every other word becomes its own
token.  Stated on the character-level core and on the `String`-level
`_split_text`. -/
theorem C9_double_space (pre post : List (List Char)) (w1 w2 : List Char)
    (hpre : ∀ w ∈ pre, IsWord w) (hpost : ∀ w ∈ post, IsWord w)
    (h1 : IsWord w1) (h2 : IsWord w2) :
    splitTextChars (joinSp (pre ++ (w1 ++ ' ' :: ' ' :: w2) :: post))
      = pre ++ (w1 ++ ' ' :: w2) :: post ∧
    splitText (String.mk (joinSp (pre ++ (w1 ++ ' ' :: ' ' :: w2) :: post)))
      = (pre ++ (w1 ++ ' ' :: w2) :: post).map (fun l => String.mk l) := by
  have hall : ∀ w ∈ pre ++ (w1 ++ '\x00' :: w2) :: post,
      w ≠ [] ∧ ∀ c ∈ w, ¬ pyIsSpace c := by
    intro w hw
    rcases List.mem_append.mp hw with h | h
    · exact ⟨(hpre w h).1, fun c hc => ((hpre w h).2 c hc).1⟩
    · rcases List.mem_cons.mp h with h | h
      · subst h
        refine ⟨fun hx => h1.1 (List.append_eq_nil.mp hx).1, ?_⟩
        intro c hc
        rcases List.mem_append.mp hc with hc | hc
        · exact (h1.2 c hc).1
        · rcases List.mem_cons.mp hc with hc | hc
          · subst hc; decide
          · exact (h2.2 c hc).1
      · exact ⟨(hpost w h).1, fun c hc => ((hpost w h).2 c hc).1⟩
  have hchars : splitTextChars (joinSp (pre ++ (w1 ++ ' ' :: ' ' :: w2) :: post))
      = pre ++ (w1 ++ ' ' :: w2) :: post := by
    rw [splitTextChars, replaceDS_marked pre post w1 w2 hpre hpost h1 h2,
      pySplit_joinSp _ hall, List.map_append, List.map_cons]
    have hmpre : pre.map restoreNul = pre.map (fun w => w) :=
      List.map_congr_left
        (fun w hw => restoreNul_id w (fun c hc => ((hpre w hw).2 c hc).2))
    have hmpost : post.map restoreNul = post.map (fun w => w) :=
      List.map_congr_left
        (fun w hw => restoreNul_id w (fun c hc => ((hpost w hw).2 c hc).2))
    rw [hmpre, hmpost,
      restoreNul_marked w1 w2 (fun c hc => (h1.2 c hc).2) (fun c hc => (h2.2 c hc).2)]
    simp only [List.map_id']
  refine ⟨hchars, ?_⟩
  rw [splitText, show (String.mk (joinSp (pre ++ (w1 ++ ' ' :: ' ' :: w2) :: post))).data
    = joinSp (pre ++ (w1 ++ ' ' :: ' ' :: w2) :: post) from rfl, hchars]

/-- Witness for **C9**: the legend `"a x  y c"` splits into `["a", "x y", "c"]`. -/
theorem C9_double_space_witness :
    splitTextChars (joinSp ([['a']] ++ (['x'] ++ ' ' :: ' ' :: ['y']) :: [['c']]))
      = [['a']] ++ (['x'] ++ ' ' :: ['y']) :: [['c']] ∧
    splitText (String.mk (joinSp ([['a']] ++ (['x'] ++ ' ' :: ' ' :: ['y']) :: [['c']])))
      = ([['a']] ++ (['x'] ++ ' ' :: ['y']) :: [['c']]).map (fun l => String.mk l) :=
  C9_double_space [['a']] [['c']] ['x'] ['y']
    (by decide) (by decide) (by decide) (by decide)

/-- **C1** (code bug, evaluated at the failing input): for the two-key sample
layout and a layer holding a single key, `print_layer` silently draws exactly
one key group — the paired `zip` iteration stops at the shorter layer sequence
instead of rejecting it as an input-validation error, and the key at index 1 is
silently omitted. -/
theorem C1_short_layer_truncated :
    (printLayer sampleDrawer ⟨0, 0⟩ [⟨"A", "", "", ""⟩] false).countP isKeyGroupOpen = 1 ∧
    sampleDrawer.keys.length = 2 := by
  constructor <;> decide

/-- **C6**: the tap-legend vertical shift computed in `print_key` is `-1` for a
two-line tap legend with `shifted` present and `hold` absent, `+1` for a
two-line tap legend with `hold` present and `shifted` absent, `0` in every
other case — in particular `0` for every single-line tap legend. -/
theorem C6_tap_legend_shift (lk : LayoutKey) :
    (((splitText lk.tap).length = 2 ∧ lk.shifted ≠ "" ∧ lk.hold = "") →
      computeShift lk = -1) ∧
    (((splitText lk.tap).length = 2 ∧ lk.hold ≠ "" ∧ lk.shifted = "") →
      computeShift lk = 1) ∧
    ((¬ ((splitText lk.tap).length = 2 ∧
        ((lk.shifted ≠ "" ∧ lk.hold = "") ∨ (lk.hold ≠ "" ∧ lk.shifted = "")))) →
      computeShift lk = 0) ∧
    ((splitText lk.tap).length = 1 → computeShift lk = 0) := by
  unfold computeShift
  refine ⟨?_, ?_, ?_, ?_⟩
  · rintro ⟨h2, hs, hh⟩
    rw [if_pos h2, if_pos ⟨hs, hh⟩]
  · rintro ⟨h2, hh, hs⟩
    rw [if_pos h2, if_neg (fun hc => hh hc.2), if_pos ⟨hh, hs⟩]
  · intro h
    by_cases h2 : (splitText lk.tap).length = 2
    · rw [if_pos h2, if_neg (fun hA => h ⟨h2, Or.inl hA⟩),
        if_neg (fun hB => h ⟨h2, Or.inr hB⟩)]
    · rw [if_neg h2]
  · intro h1
    rw [if_neg (by omega)]

/-- Witness for **C6** on concrete legends, one per branch. -/
theorem C6_tap_legend_shift_witness :
    computeShift ⟨"a b", "", "x", ""⟩ = -1 ∧
    computeShift ⟨"a b", "m", "", ""⟩ = 1 ∧
    computeShift ⟨"a b", "m", "x", ""⟩ = 0 ∧
    computeShift ⟨"a", "m", "", ""⟩ = 0 :=
  ⟨(C6_tap_legend_shift ⟨"a b", "", "x", ""⟩).1 (by decide),
   (C6_tap_legend_shift ⟨"a b", "m", "", ""⟩).2.1 (by decide),
   (C6_tap_legend_shift ⟨"a b", "m", "x", ""⟩).2.2.1 (by decide),
   (C6_tap_legend_shift ⟨"a", "m", "", ""⟩).2.2.2 (by decide)⟩

/-- **C8** (counterexample): on the non-empty sequence `[""]`, whose only
token is falsy, `_to_class_str` emits the attribute fragment `' class=""'` —
not the empty string the claim requires when the filtered sequence is empty. -/
theorem C8_counterexample :
    toClassStr [""] = " class=\"\"" ∧ toClassStr [""] ≠ "" := by
  constructor <;> decide

/-- **C8** (amended): `_to_class_str` drops the falsy tokens and joins the
rest with single spaces, but it produces the empty string exactly when the
*input* sequence is empty; a non-empty sequence of only falsy tokens still
produces an attribute fragment (with an empty value). -/
theorem C8_amended_class_attribute (classes : List String) :
    (toClassStr classes = "" ↔ classes = []) ∧
    (classes ≠ [] →
      toClassStr classes
        = " class=\"" ++ String.intercalate " " (classes.filter (fun c => c ≠ "")) ++ "\"") := by
  refine ⟨⟨?_, ?_⟩, ?_⟩
  · intro h
    by_contra hne
    rw [toClassStr, if_neg hne] at h
    have hlen := congrArg String.length h
    rw [String.length_append, String.length_append] at hlen
    simp at hlen
    exact absurd hlen.1.1 (by decide)
  · intro h
    subst h
    rfl
  · intro h
    rw [toClassStr, if_neg h]

/-- Witness for **C8** (amended) on a concrete mixed sequence. -/
theorem C8_amended_class_attribute_witness :
    toClassStr ["a", "", "b"]
      = " class=\""
        ++ String.intercalate " " ((["a", "", "b"] : List String).filter (fun c => c ≠ ""))
        ++ "\"" :=
  (C8_amended_class_attribute ["a", "", "b"]).2 (by decide)

/-- **C7**: the `_draw_legend` dispatch — an empty word sequence draws
nothing; a single word the glyph collaborator recognizes draws exactly one
glyph reference and never a text node; a single unrecognized non-empty word
draws one text line; two or more words draw one text block; and a single word
equal to the empty string (an absent hold/shifted legend) draws nothing at
all, with no placeholder element. -/
theorem C7_legend_dispatch (cfg : DrawConfig) (g : Glyphs) (p : Point)
    (classes : List String) (lt : LegendType) (shift : ℚ) :
    (drawLegend cfg g p [] classes lt shift = []) ∧
    (∀ w gl, g.legendToGlyph w = some gl → gl ≠ "" →
      drawLegend cfg g p [w] classes lt shift
        = [Frag.glyphRef gl (pyRound (p.x - (g.dims gl lt).1 / 2))
            (pyRound (p.y - (g.dims gl lt).2.2)) (g.dims gl lt).2.1 (g.dims gl lt).1
            (toClassStr (classes ++ [lt.str] ++ ["glyph", gl]))]) ∧
    (∀ w, w ≠ "" → g.legendToGlyph w = none →
      drawLegend cfg g p [w] classes lt shift
        = [Frag.textLine (pyRound p.x) (pyRound p.y) (toClassStr (classes ++ [lt.str]))
            (getScaling cfg w.length) (pyEscape w)]) ∧
    (∀ ws : List String, 2 ≤ ws.length →
      drawLegend cfg g p ws classes lt shift
        = drawTextblock cfg p ws (classes ++ [lt.str]) shift) ∧
    (g.legendToGlyph "" = none → drawLegend cfg g p [""] classes lt shift = []) := by
  refine ⟨?_, ?_, ?_, ?_, ?_⟩
  · rfl
  · intro w gl hg hgl
    simp only [drawLegend, drawGlyph, List.headD, reduceIte, List.length_singleton, if_pos rfl, hg,
      if_neg hgl, List.append_assoc]
    simp
  · intro w hw hg
    simp only [drawLegend, drawText, List.headD, List.length_singleton, hg, if_neg hw]
    simp
  · intro ws hws
    have hne : ws ≠ [] := by
      intro h; subst h; simp at hws
    have hlen : ws.length ≠ 1 := by omega
    simp only [drawLegend, if_neg hne, if_neg hlen]
  · intro hg
    simp [drawLegend, drawText, hg]

/-- Witness for **C7** with each dispatch branch exercised on concrete
inputs. -/
theorem C7_legend_dispatch_witness :
    (drawLegend sampleCfg sampleGlyphs ⟨3, 4⟩ [] ["key"] .tap 0 = []) ∧
    (drawLegend sampleCfg sampleGlyphs ⟨3, 4⟩ ["sym"] ["key"] .tap 0
      = [Frag.glyphRef "gsym"
          (pyRound ((Point.mk 3 4).x - (sampleGlyphs.dims "gsym" LegendType.tap).1 / 2))
          (pyRound ((Point.mk 3 4).y - (sampleGlyphs.dims "gsym" LegendType.tap).2.2))
          (sampleGlyphs.dims "gsym" LegendType.tap).2.1
          (sampleGlyphs.dims "gsym" LegendType.tap).1
          (toClassStr (["key"] ++ [LegendType.tap.str] ++ ["glyph", "gsym"]))]) ∧
    (drawLegend sampleCfg sampleGlyphs ⟨3, 4⟩ ["A"] ["key"] .tap 0
      = [Frag.textLine (pyRound (Point.mk 3 4).x) (pyRound (Point.mk 3 4).y)
          (toClassStr (["key"] ++ [LegendType.tap.str]))
          (getScaling sampleCfg ("A" : String).length) (pyEscape "A")]) ∧
    (drawLegend sampleCfg sampleGlyphs ⟨3, 4⟩ ["a", "b"] ["key"] .tap 0
      = drawTextblock sampleCfg ⟨3, 4⟩ ["a", "b"] (["key"] ++ [LegendType.tap.str]) 0) ∧
    (drawLegend sampleCfg sampleGlyphs ⟨3, 4⟩ [""] ["key"] .tap 0 = []) :=
  ⟨(C7_legend_dispatch sampleCfg sampleGlyphs ⟨3, 4⟩ ["key"] .tap 0).1,
   (C7_legend_dispatch sampleCfg sampleGlyphs ⟨3, 4⟩ ["key"] .tap 0).2.1 "sym" "gsym"
     (by decide) (by decide),
   (C7_legend_dispatch sampleCfg sampleGlyphs ⟨3, 4⟩ ["key"] .tap 0).2.2.1 "A"
     (by decide) (by decide),
   (C7_legend_dispatch sampleCfg sampleGlyphs ⟨3, 4⟩ ["key"] .tap 0).2.2.2.1 ["a", "b"]
     (by decide),
   (C7_legend_dispatch sampleCfg sampleGlyphs ⟨3, 4⟩ ["key"] .tap 0).2.2.2.2 (by decide)⟩

/-- **C2** (counterexample): Python's `round` is round-half-to-even, not
round-half-away-from-zero: a corner radius of `5/2` is emitted as `2` while
the claim's rounding gives `3` (likewise `x = -5/2` is emitted as `-2`); and
the per-line `<tspan>` elements of a multi-line text block carry the raw
coordinate `x = 5/2`, which is not an integer at all. -/
theorem C2_counterexample :
    drawRect ⟨0, 0⟩ ⟨5, 5⟩ ⟨5/2, 0⟩ [] = Frag.rect 2 0 (-2) (-2) 5 5 "" ∧
    roundHalfAway (5/2) = 3 ∧ roundHalfAway (-5/2) = -3 ∧
    (drawTextblock sampleCfg ⟨5/2, 0⟩ ["ab", "cd"] [] 0).map tspanX
      = [none, some (5/2), some (5/2), none] ∧
    (5/2 : ℚ) ≠ ((roundHalfAway (5/2) : ℤ) : ℚ) := by
  have hf1 : ⌊(5/2 : ℚ)⌋ = 2 := by rw [Int.floor_eq_iff]; norm_num
  have hf2 : ⌊(0 - 5/2 : ℚ)⌋ = -3 := by rw [Int.floor_eq_iff]; norm_num
  have hf3 : ⌊(5/2 + 1/2 : ℚ)⌋ = 3 := by rw [Int.floor_eq_iff]; norm_num
  have hf4 : ⌊(-(-5/2) + 1/2 : ℚ)⌋ = 3 := by rw [Int.floor_eq_iff]; norm_num
  have hr1 : pyRound (5/2) = 2 := by unfold pyRound; norm_num [hf1]
  have hr2 : pyRound (0 - 5/2) = -2 := by unfold pyRound; norm_num [hf2]
  have ha1 : roundHalfAway (5/2) = 3 := by unfold roundHalfAway; norm_num [hf3]
  have ha2 : roundHalfAway (-5/2) = -3 := by unfold roundHalfAway; norm_num [hf4]
  refine ⟨?_, ha1, ha2, ?_, ?_⟩
  · simp only [drawRect]
    norm_num [hr1, hr2, pyRound, toClassStr]
  · simp [drawTextblock, tspanX]
  · rw [ha1]
    norm_num

/-- **C2** (amended): every coordinate emitted into the markup through
`round(...)` — the rectangle's radii, position and dimensions, the text
elements' `x`/`y`, the glyph reference's `x`/`y`, and the rotation centre —
is its mathematical value rounded to the nearest integer with exact halves
rounded *to even* (Python's rounding); the `x` of each `<tspan>` line inside a
multi-line text block is emitted unrounded, equal to the raw mathematical
value. -/
theorem C2_amended_rounding (cfg : DrawConfig) (g : Glyphs) (d : Drawer)
    (p0 p dims radii : Point) (classes : List String) (w name : String)
    (ws : List String) (lt : LegendType) (shift : ℚ) (pk : PhysicalKey)
    (lk : LayoutKey) (ind : ℕ) :
    (∃ rx ry x y wd ht cls, drawRect p dims radii classes = Frag.rect rx ry x y wd ht cls ∧
      RoundsTiesEven radii.x rx ∧ RoundsTiesEven radii.y ry ∧
      RoundsTiesEven (p.x - dims.x / 2) x ∧ RoundsTiesEven (p.y - dims.y / 2) y ∧
      RoundsTiesEven dims.x wd ∧ RoundsTiesEven dims.y ht) ∧
    (w ≠ "" → ∃ x y cls sc,
      drawText cfg p w classes = [Frag.textLine x y cls sc (pyEscape w)] ∧
      RoundsTiesEven p.x x ∧ RoundsTiesEven p.y y) ∧
    (∃ x y cls sc rest,
      drawTextblock cfg p ws classes shift = Frag.textOpen x y cls sc :: rest ∧
      RoundsTiesEven p.x x ∧ RoundsTiesEven p.y y ∧
      ∀ f ∈ drawTextblock cfg p ws classes shift, tspanX f = none ∨ tspanX f = some p.x) ∧
    (∃ x y cls, drawGlyph g p name lt classes
        = [Frag.glyphRef name x y (g.dims name lt).2.1 (g.dims name lt).1 cls] ∧
      RoundsTiesEven (p.x - (g.dims name lt).1 / 2) x ∧
      RoundsTiesEven (p.y - (g.dims name lt).2.2) y) ∧
    (pk.rotation ≠ 0 → ∃ cx cy cls rest,
      printKey d p0 pk lk ind = Frag.groupOpen (some (pk.rotation, cx, cy)) cls :: rest ∧
      RoundsTiesEven (p0 + pk.pos).x cx ∧ RoundsTiesEven (p0 + pk.pos).y cy) := by
  refine ⟨?_, ?_, ?_, ?_, ?_⟩
  · exact ⟨_, _, _, _, _, _, _, rfl, pyRound_spec _, pyRound_spec _, pyRound_spec _,
      pyRound_spec _, pyRound_spec _, pyRound_spec _⟩
  · intro hw
    rw [drawText, if_neg hw]
    exact ⟨_, _, _, _, rfl, pyRound_spec _, pyRound_spec _⟩
  · refine ⟨_, _, _, _, _, rfl, pyRound_spec _, pyRound_spec _, ?_⟩
    intro f hf
    simp only [drawTextblock, List.append_assoc, List.cons_append, List.nil_append,
      List.mem_cons, List.mem_append, List.mem_map, List.mem_singleton] at hf
    rcases hf with h | h | ⟨wrd, _, h⟩ | h | h
    · subst h; simp [tspanX]
    · subst h; simp [tspanX]
    · subst h; simp [tspanX]
    · subst h; simp [tspanX]
    · simp at h
  · exact ⟨_, _, _, rfl, pyRound_spec _, pyRound_spec _⟩
  · intro hrot
    have h : ∃ rest, printKey d p0 pk lk ind
        = Frag.groupOpen (some (pk.rotation, pyRound (p0 + pk.pos).x, pyRound (p0 + pk.pos).y))
            (toClassStr ["key", lk.type, "keypos-" ++ toString ind]) :: rest := by
      simp only [printKey, if_pos hrot]
      exact ⟨_, rfl⟩
    obtain ⟨rest, h⟩ := h
    exact ⟨_, _, _, rest, h, pyRound_spec _, pyRound_spec _⟩

/-- Witness for **C2** (amended): the hypothesis-guarded conjuncts applied to
a concrete fractional point and a concretely rotated key. -/
theorem C2_amended_rounding_witness :
    (∃ x y cls sc,
      drawText sampleCfg ⟨5/2, 1/2⟩ "A" [] = [Frag.textLine x y cls sc (pyEscape "A")] ∧
      RoundsTiesEven (Point.mk (5/2) (1/2)).x x ∧ RoundsTiesEven (Point.mk (5/2) (1/2)).y y) ∧
    (∃ cx cy cls rest,
      printKey sampleDrawer ⟨0, 0⟩ ⟨⟨0, 0⟩, 52, 52, 45⟩ LayoutKey.empty 0
        = Frag.groupOpen (some ((PhysicalKey.mk ⟨0, 0⟩ 52 52 45).rotation, cx, cy)) cls :: rest ∧
      RoundsTiesEven (Point.mk 0 0 + (PhysicalKey.mk ⟨0, 0⟩ 52 52 45).pos).x cx ∧
      RoundsTiesEven (Point.mk 0 0 + (PhysicalKey.mk ⟨0, 0⟩ 52 52 45).pos).y cy) :=
  ⟨(C2_amended_rounding sampleCfg sampleGlyphs sampleDrawer ⟨0, 0⟩ ⟨5/2, 1/2⟩ ⟨5, 5⟩
      ⟨5/2, 0⟩ [] "A" "gsym" ["ab", "cd"] .tap 0 ⟨⟨0, 0⟩, 52, 52, 45⟩
      LayoutKey.empty 0).2.1 (by decide),
   (C2_amended_rounding sampleCfg sampleGlyphs sampleDrawer ⟨0, 0⟩ ⟨5/2, 1/2⟩ ⟨5, 5⟩
      ⟨5/2, 0⟩ [] "A" "gsym" ["ab", "cd"] .tap 0 ⟨⟨0, 0⟩, 52, 52, 45⟩
      LayoutKey.empty 0).2.2.2.2 (by decide)⟩

/-- **C3**: requesting an in-range ghost position `k` succeeds, and in the
working copy that `print_board` renders every layer's key `k` has type
`"ghost"` while every other key — and key `k`'s own legends — is unchanged;
the whole `print_board` call then succeeds.  The caller's keymap is untouched:
the Python `deepcopy` is modelled by pure value-passing, so `applyGhosts`
returns a fresh layer list and `layers` itself is never modified. -/
theorem C3_ghost_keys (d : Drawer) (layers : List (String × List LayoutKey))
    (k : ℤ) (keysOnly combosOnly : Bool)
    (hk : 0 ≤ k ∧ k < (d.keys.length : ℤ))
    (hlen : ∀ nl ∈ layers, k.toNat < nl.2.length) :
    ∃ layers2,
      applyGhosts d.keys.length layers (some [k]) = Except.ok layers2 ∧
      layers2.map Prod.fst = layers.map Prod.fst ∧
      (∀ nl2 ∈ layers2, (nl2.2[k.toNat]?).map LayoutKey.type = some "ghost") ∧
      (∀ (i j : ℕ), j ≠ k.toNat →
        (layers2[i]?).bind (fun (nl : String × List LayoutKey) => nl.2[j]?)
          = (layers[i]?).bind (fun (nl : String × List LayoutKey) => nl.2[j]?)) ∧
      (∀ (i : ℕ), (((layers2[i]?).bind
              (fun (nl : String × List LayoutKey) => nl.2[k.toNat]?)).map
            (fun (kk : LayoutKey) => (kk.tap, kk.hold, kk.shifted)))
          = (((layers[i]?).bind
              (fun (nl : String × List LayoutKey) => nl.2[k.toNat]?)).map
            (fun (kk : LayoutKey) => (kk.tap, kk.hold, kk.shifted)))) ∧
      printBoard d layers none keysOnly combosOnly (some [k])
        = Except.ok (emitBoard d keysOnly combosOnly layers2) := by
  have hg : ∀ nl ∈ layers, ∃ kk, nl.2[k.toNat]? = some kk :=
    fun nl hnl => ⟨nl.2.get ⟨k.toNat, hlen nl hnl⟩,
      List.getElem?_eq_getElem (hlen nl hnl)⟩
  let g : String × List LayoutKey → String × List LayoutKey := fun nl =>
    (nl.1, match nl.2[k.toNat]? with
      | some kk => nl.2.set k.toNat ⟨kk.tap, kk.hold, kk.shifted, "ghost"⟩
      | none => nl.2)
  have hstep : ∀ nl ∈ layers,
      (setGhostAt nl.2 k.toNat).map (fun ks => (nl.1, ks)) = .ok (g nl) := by
    intro nl hnl
    obtain ⟨kk, hkk⟩ := hg nl hnl
    show (setGhostAt nl.2 k.toNat).map (fun ks => (nl.1, ks)) = .ok (nl.1, _)
    rw [setGhostAt, hkk]
    rfl
  have hMapM : layers.mapM
        (fun nl => (setGhostAt nl.2 k.toNat).map (fun ks => (nl.1, ks)))
      = .ok (layers.map g) := exceptMapM_ok _ g layers hstep
  have hAG : applyGhosts d.keys.length layers (some [k]) = .ok (layers.map g) := by
    simp only [applyGhosts]
    rw [List.foldlM_cons, if_pos hk, hMapM, exBind_ok, List.foldlM_nil]
    rfl
  refine ⟨layers.map g, hAG, ?_, ?_, ?_, ?_, ?_⟩
  · rw [List.map_map]
    exact List.map_congr_left (fun nl _ => rfl)
  · intro nl2 hnl2
    obtain ⟨nl, hnl, rfl⟩ := List.mem_map.mp hnl2
    obtain ⟨kk, hkk⟩ := hg nl hnl
    show ((match nl.2[k.toNat]? with
      | some kk => nl.2.set k.toNat ⟨kk.tap, kk.hold, kk.shifted, "ghost"⟩
      | none => nl.2)[k.toNat]?).map LayoutKey.type = some "ghost"
    rw [hkk]
    have hset : (nl.2.set k.toNat
        ⟨kk.tap, kk.hold, kk.shifted, "ghost"⟩)[k.toNat]?
        = some ⟨kk.tap, kk.hold, kk.shifted, "ghost"⟩ :=
      List.getElem?_set_self (hlen nl hnl)
    rw [hset]
    rfl
  · intro i j hj
    rw [List.getElem?_map]
    cases hx : layers[i]? with
    | none => rfl
    | some nl =>
      obtain ⟨kk, hkk⟩ := hg nl (List.getElem?_mem hx)
      show (match nl.2[k.toNat]? with
        | some kk => nl.2.set k.toNat ⟨kk.tap, kk.hold, kk.shifted, "ghost"⟩
        | none => nl.2)[j]? = nl.2[j]?
      rw [hkk]
      exact List.getElem?_set_ne (Ne.symm hj)
  · intro i
    rw [List.getElem?_map]
    cases hx : layers[i]? with
    | none => rfl
    | some nl =>
      obtain ⟨kk, hkk⟩ := hg nl (List.getElem?_mem hx)
      show ((match nl.2[k.toNat]? with
        | some kk => nl.2.set k.toNat ⟨kk.tap, kk.hold, kk.shifted, "ghost"⟩
        | none => nl.2)[k.toNat]?).map (fun kk => (kk.tap, kk.hold, kk.shifted))
        = (nl.2[k.toNat]?).map (fun kk => (kk.tap, kk.hold, kk.shifted))
      rw [hkk]
      have hset : (nl.2.set k.toNat
          ⟨kk.tap, kk.hold, kk.shifted, "ghost"⟩)[k.toNat]?
          = some ⟨kk.tap, kk.hold, kk.shifted, "ghost"⟩ :=
        List.getElem?_set_self (hlen nl (List.getElem?_mem hx))
      rw [hset]
      rfl
  · rw [printBoard_eq]
    simp only [filterLayers, hAG]

/-- Witness for **C3**: a concrete one-layer keymap, ghost position 1 on the
two-key sample layout. -/
theorem C3_ghost_keys_witness :
    ∃ layers2,
      applyGhosts sampleDrawer.keys.length
          [("L", [LayoutKey.empty, ⟨"A", "h", "s", ""⟩])] (some [1])
        = Except.ok layers2 ∧
      layers2.map Prod.fst
        = [("L", [LayoutKey.empty, ⟨"A", "h", "s", ""⟩])].map Prod.fst ∧
      (∀ nl2 ∈ layers2, (nl2.2[(1 : ℤ).toNat]?).map LayoutKey.type = some "ghost") ∧
      (∀ (i j : ℕ), j ≠ (1 : ℤ).toNat →
        (layers2[i]?).bind (fun (nl : String × List LayoutKey) => nl.2[j]?)
          = ([("L", [LayoutKey.empty, ⟨"A", "h", "s", ""⟩])][i]?).bind
              (fun (nl : String × List LayoutKey) => nl.2[j]?)) ∧
      (∀ (i : ℕ), (((layers2[i]?).bind
              (fun (nl : String × List LayoutKey) => nl.2[(1 : ℤ).toNat]?)).map
            (fun (kk : LayoutKey) => (kk.tap, kk.hold, kk.shifted)))
          = ((([("L", [LayoutKey.empty, ⟨"A", "h", "s", ""⟩])][i]?).bind
              (fun (nl : String × List LayoutKey) => nl.2[(1 : ℤ).toNat]?)).map
            (fun (kk : LayoutKey) => (kk.tap, kk.hold, kk.shifted)))) ∧
      printBoard sampleDrawer [("L", [LayoutKey.empty, ⟨"A", "h", "s", ""⟩])]
          none false false (some [1])
        = Except.ok (emitBoard sampleDrawer false false layers2) :=
  C3_ghost_keys sampleDrawer [("L", [LayoutKey.empty, ⟨"A", "h", "s", ""⟩])] 1
    false false (by decide) (by decide)

/-- **C4**: the document height emitted by `print_board` equals
`n × layout-height + (n+1) × outer-pad-h` plus the sum of the
collaborator-reported top and bottom reserved offsets over the selected
layers (here: all `n` layers, no ghosting); in particular, for a two-layer
keymap whose reserved offsets sum to zero it is exactly
`2 × layout-height + 3 × outer-pad-h`.  The width is
`layout-width + 2 × outer-pad-w`. -/
theorem C4_board_height (d : Drawer) (keymap : List (String × List LayoutKey))
    (keysOnly combosOnly : Bool) :
    (∃ rest, printBoard d keymap none keysOnly combosOnly none
      = Except.ok (Frag.svgOpen (d.layoutWidth + 2 * d.cfg.outer_pad_w)
          ((keymap.length : ℚ) * d.layoutHeight
            + ((keymap.length : ℚ) + 1) * d.cfg.outer_pad_h
            + ((d.combos.offsetsPerLayer (combosFor d keysOnly keymap)).map
                (fun x => x.2.1 + x.2.2)).sum) :: rest)) ∧
    (keymap.length = 2 →
      ((d.combos.offsetsPerLayer (combosFor d keysOnly keymap)).map
          (fun x => x.2.1 + x.2.2)).sum = 0 →
      ∃ rest, printBoard d keymap none keysOnly combosOnly none
        = Except.ok (Frag.svgOpen (d.layoutWidth + 2 * d.cfg.outer_pad_w)
            (2 * d.layoutHeight + 3 * d.cfg.outer_pad_h) :: rest)) := by
  have h1 : ∃ rest, printBoard d keymap none keysOnly combosOnly none
      = Except.ok (Frag.svgOpen (d.layoutWidth + 2 * d.cfg.outer_pad_w)
          ((keymap.length : ℚ) * d.layoutHeight
            + ((keymap.length : ℚ) + 1) * d.cfg.outer_pad_h
            + ((d.combos.offsetsPerLayer (combosFor d keysOnly keymap)).map
                (fun x => x.2.1 + x.2.2)).sum) :: rest) := by
    rw [printBoard_eq]
    simp only [filterLayers, applyGhosts]
    exact ⟨_, rfl⟩
  refine ⟨h1, ?_⟩
  intro h2 hoff
  obtain ⟨rest, heq⟩ := h1
  refine ⟨rest, ?_⟩
  rw [heq]
  have harith : (keymap.length : ℚ) * d.layoutHeight
      + ((keymap.length : ℚ) + 1) * d.cfg.outer_pad_h
      + ((d.combos.offsetsPerLayer (combosFor d keysOnly keymap)).map
          (fun x => x.2.1 + x.2.2)).sum
      = 2 * d.layoutHeight + 3 * d.cfg.outer_pad_h := by
    rw [h2, hoff]
    push_cast
    ring
  rw [harith]

/-- Witness for **C4**: the two-layer case on the sample drawer, whose combo
collaborator reports zero offsets. -/
theorem C4_board_height_witness :
    ∃ rest, printBoard sampleDrawer [("A", []), ("B", [])] none false false none
      = Except.ok (Frag.svgOpen
          (sampleDrawer.layoutWidth + 2 * sampleDrawer.cfg.outer_pad_w)
          (2 * sampleDrawer.layoutHeight + 3 * sampleDrawer.cfg.outer_pad_h) :: rest) :=
  (C4_board_height sampleDrawer [("A", []), ("B", [])] false false).2 (by decide)
    (by norm_num [sampleDrawer, noCombos, combosFor])

/-- **C5**: a `print_board` call that requests a layer name not in the keymap,
or a ghost-key index outside `[0, key-count)` — the latter under *any*
`draw_layers` selection (absent, empty, valid, or itself invalid) — fails with
the invalid-selection error, and the output sink is unchanged: both
validations precede the first write, so nothing is emitted. -/
theorem C5_invalid_selection (d : Drawer) (keymap : List (String × List LayoutKey))
    (drawLayers : Option (List String)) (ghostKeys : Option (List ℤ))
    (keysOnly combosOnly : Bool) (sink : List Frag)
    (h : (∃ ds, drawLayers = some ds ∧ ds ≠ [] ∧
            ¬ (ds.all (fun l => keymap.any (fun nl => nl.1 = l)) = true)) ∨
         (∃ gs k, ghostKeys = some gs ∧ k ∈ gs ∧
            ¬ (0 ≤ k ∧ k < (d.keys.length : ℤ)))) :
    ∃ e, printBoard d keymap drawLayers keysOnly combosOnly ghostKeys = .error e ∧
      printBoardRun d keymap drawLayers keysOnly combosOnly ghostKeys sink
        = (sink, some e) := by
  have hmain : ∃ e, printBoard d keymap drawLayers keysOnly combosOnly ghostKeys
      = .error e := by
    rcases h with ⟨ds, hds, hne, hbad⟩ | ⟨gs, k, hgs, hmem, hbad⟩
    · subst hds
      have hf : filterLayers keymap (some ds)
          = .error "Some layer names selected for drawing are not in the keymap" := by
        simp only [filterLayers, if_neg hne, if_neg hbad]
      rw [printBoard_eq, hf]
      exact ⟨_, rfl⟩
    · subst hgs
      rw [printBoard_eq]
      cases hf : filterLayers keymap drawLayers with
      | error e => exact ⟨e, rfl⟩
      | ok ls =>
        obtain ⟨e, he⟩ := ghostFold_err d.keys.length k hbad gs hmem ls
        have hg : applyGhosts d.keys.length ls (some gs) = .error e := by
          simp only [applyGhosts]
          exact he
        refine ⟨e, ?_⟩
        show (match applyGhosts d.keys.length ls (some gs) with
            | Except.error e => Except.error e
            | Except.ok ls2 => Except.ok (emitBoard d keysOnly combosOnly ls2))
          = Except.error e
        rw [hg]
  obtain ⟨e, he⟩ := hmain
  refine ⟨e, he, ?_⟩
  rw [printBoardRun, he]

/-- Witness for **C5**: requesting the absent layer name `"Nope"`; the
out-of-range ghost index 5 with no layer selection; and the out-of-range ghost
index 5 together with the valid selection `["Base"]` — all on the sample
drawer, all leaving the empty sink empty. -/
theorem C5_invalid_selection_witness :
    (∃ e, printBoard sampleDrawer [("Base", [])] (some ["Nope"]) false false none
        = .error e ∧
      printBoardRun sampleDrawer [("Base", [])] (some ["Nope"]) false false none []
        = ([], some e)) ∧
    (∃ e, printBoard sampleDrawer [("Base", [])] none false false (some [5])
        = .error e ∧
      printBoardRun sampleDrawer [("Base", [])] none false false (some [5]) []
        = ([], some e)) ∧
    (∃ e, printBoard sampleDrawer [("Base", [])] (some ["Base"]) false false (some [5])
        = .error e ∧
      printBoardRun sampleDrawer [("Base", [])] (some ["Base"]) false false (some [5]) []
        = ([], some e)) :=
  ⟨C5_invalid_selection sampleDrawer [("Base", [])] (some ["Nope"]) none false false []
      (Or.inl ⟨["Nope"], rfl, by decide, by decide⟩),
   C5_invalid_selection sampleDrawer [("Base", [])] none (some [5]) false false []
      (Or.inr ⟨[5], 5, rfl, by decide, by decide⟩),
   C5_invalid_selection sampleDrawer [("Base", [])] (some ["Base"]) (some [5]) false false []
      (Or.inr ⟨[5], 5, rfl, by decide, by decide⟩)⟩

/-- **C10**: rendering is deterministic and stateless.  `printBoard` is a pure
function of the drawer value (configuration, physical layout, glyph and combo
collaborators) and the call arguments, so the fragments appended by a
successful `print_board` call do not depend on the sink contents, and two
calls with equal arguments — e.g. run back to back against the same sink —
append byte-identical output; no state other than the sink contents survives
a call. -/
theorem C10_deterministic (d : Drawer) (keymap : List (String × List LayoutKey))
    (drawLayers : Option (List String)) (keysOnly combosOnly : Bool)
    (ghostKeys : Option (List ℤ)) (sink o : List Frag)
    (h : printBoard d keymap drawLayers keysOnly combosOnly ghostKeys = .ok o) :
    printBoardRun d keymap drawLayers keysOnly combosOnly ghostKeys sink
      = (sink ++ o, none) ∧
    printBoardRun d keymap drawLayers keysOnly combosOnly ghostKeys (sink ++ o)
      = (sink ++ o ++ o, none) := by
  constructor <;> rw [printBoardRun, h]

/-- Witness for **C10**: two successive renders of the empty keymap on the
sample drawer, starting from an empty sink. -/
theorem C10_deterministic_witness :
    printBoardRun sampleDrawer [] none false false none []
      = ([] ++ [Frag.svgOpen 180 15, Frag.rawDefs "", Frag.styleBlock "",
          Frag.svgClose], none) ∧
    printBoardRun sampleDrawer [] none false false none
        ([] ++ [Frag.svgOpen 180 15, Frag.rawDefs "", Frag.styleBlock "",
          Frag.svgClose])
      = ([] ++ [Frag.svgOpen 180 15, Frag.rawDefs "", Frag.styleBlock "",
          Frag.svgClose]
          ++ [Frag.svgOpen 180 15, Frag.rawDefs "", Frag.styleBlock "",
          Frag.svgClose], none) :=
  C10_deterministic sampleDrawer [] none false false none []
    [Frag.svgOpen 180 15, Frag.rawDefs "", Frag.styleBlock "", Frag.svgClose]
    (by
      rw [printBoard_eq]
      simp only [filterLayers, applyGhosts]
      norm_num [emitBoard, combosFor, sampleDrawer, noCombos, noGlyphs, sampleCfg,
        layerStep])

end KeymapDraw
